import Mathlib

/-!
Verification of the MCP Gateway of this repository: the server registry
(`src/services/mcp-gateway/src/registry.py`), the router
(`src/services/mcp-gateway/src/router.py`) and the HTTP API layer
(`src/services/mcp-gateway/src/main.py`), shallowly embedded in Lean 4.

Modelling conventions:
* Python's in-place mutation of the registry becomes explicit state
  passing: every state-changing operation takes an `MCPRegistry` and
  returns the new `MCPRegistry` together with its Python return value.
* `self.servers` is a Python `dict`, which preserves insertion order and
  keeps an existing key at its original position on overwrite; it is
  embedded as an insertion-ordered association list with first-occurrence
  update and delete.
* Wall-clock timestamps (`datetime.utcnow()`) are modelled by an explicit
  `now : Nat` parameter.
* The single outbound HTTP request a router method issues is modelled by a
  `NetOutcome` oracle describing what the network did, classified along
  the httpx exception taxonomy the source matches on (`HTTPStatusError`
  raised by `raise_for_status` for any non-2xx status, `ConnectError`,
  `TimeoutException`, or any other exception).
* Raised Python exceptions become `Except CallError` results.
* The best-effort Redis mirroring in `registry.py` never touches the
  in-memory `servers` table and is dropped; logging calls are dropped.
* A tool / resource descriptor is a JSON dict in the source; the gateway
  only reads the keys modelled below (`dict.get` on a missing key is
  `none`), and its payload is never interpreted.
-/

namespace MCPGW

/-- A tool descriptor (one element of a server's `tools` list).  The
gateway only reads its "name" and "description" keys. -/
structure Tool where
  name : Option String := none
  description : Option String := none
  deriving Repr, DecidableEq

/-- A resource descriptor (one element of a server's `resources` list).
The gateway only reads its "uri" and "name" keys. -/
structure Resource where
  uri : Option String := none
  name : Option String := none
  deriving Repr, DecidableEq

/-- Embedding of `MCPServerInfo` (registry.py, lines 15-54): the record
stored for one registered server. -/
structure MCPServerInfo where
  name : String
  version : String
  description : String
  endpoint : String
  transport : String
  tools : List Tool
  resources : List Resource
  metadata : List (String × String)
  status : String
  last_health_check : Nat
  registered_at : Nat
  deriving Repr, DecidableEq

/-- Embedding of `MCPServerInfo.__init__`: `tools or []`, `resources or []`
and `metadata or {}` default the optional arguments (an absent argument is
`none`; a supplied empty list is falsy in Python and defaults the same
way, to the same value).  `status` starts as "available" and both
timestamps are taken at construction time. -/
def MCPServerInfo.make (name version description endpoint transport : String)
    (tools : Option (List Tool)) (resources : Option (List Resource))
    (metadata : Option (List (String × String))) (now : Nat) : MCPServerInfo :=
  { name := name
    version := version
    description := description
    endpoint := endpoint
    transport := transport
    tools := tools.getD []
    resources := resources.getD []
    metadata := metadata.getD []
    status := "available"
    last_health_check := now
    registered_at := now }

/-- Embedding of the dict returned by `MCPServerInfo.to_dict` (timestamps
kept as `Nat` rather than ISO strings). -/
structure ServerDict where
  name : String
  version : String
  description : String
  endpoint : String
  transport : String
  tools : List Tool
  resources : List Resource
  metadata : List (String × String)
  status : String
  last_health_check : Nat
  registered_at : Nat
  deriving Repr, DecidableEq

/-- Embedding of `MCPServerInfo.to_dict`. -/
def MCPServerInfo.to_dict (s : MCPServerInfo) : ServerDict :=
  { name := s.name
    version := s.version
    description := s.description
    endpoint := s.endpoint
    transport := s.transport
    tools := s.tools
    resources := s.resources
    metadata := s.metadata
    status := s.status
    last_health_check := s.last_health_check
    registered_at := s.registered_at }

/-- Python `d.get(k)` / `d[k]` lookup on an insertion-ordered dict. -/
def dictGet {α : Type} (d : List (String × α)) (k : String) : Option α :=
  (d.find? (fun p => p.1 == k)).map (fun p => p.2)

/-- Python `d[k] = v`: overwrite the value at an existing key in place
(keeping its position), otherwise append the new binding at the end. -/
def dictSet {α : Type} : List (String × α) → String → α → List (String × α)
  | [], k, v => [(k, v)]
  | p :: rest, k, v =>
    if p.1 == k then (k, v) :: rest else p :: dictSet rest k v

/-- Python `del d[k]`: remove the binding at `k` (the first occurrence;
a Python dict holds at most one). -/
def dictDel {α : Type} : List (String × α) → String → List (String × α)
  | [], _ => []
  | p :: rest, k => if p.1 == k then rest else p :: dictDel rest k

/-- Embedding of `MCPRegistry` (registry.py): its in-memory state is the
insertion-ordered `servers` dict. -/
structure MCPRegistry where
  servers : List (String × MCPServerInfo)
  deriving Repr, DecidableEq

/-- States reachable through the registry API: keys are pairwise distinct
(a Python dict cannot hold duplicate keys) and every record is stored
under its own `name` (as `register` does). -/
def MCPRegistry.wf (reg : MCPRegistry) : Prop :=
  (reg.servers.map (fun p => p.1)).Nodup ∧ ∀ p ∈ reg.servers, p.2.name = p.1

instance (reg : MCPRegistry) : Decidable reg.wf := by
  unfold MCPRegistry.wf; infer_instance

/-- Embedding of `MCPRegistry.register` (registry.py, lines 78-114): build
a fresh `MCPServerInfo` and store it under `name`, overwriting any
existing entry; returns the stored record.  Always succeeds. -/
def MCPRegistry.register (reg : MCPRegistry)
    (name version description endpoint transport : String)
    (tools : Option (List Tool)) (resources : Option (List Resource))
    (metadata : Option (List (String × String))) (now : Nat) :
    MCPRegistry × MCPServerInfo :=
  let server := MCPServerInfo.make name version description endpoint transport
    tools resources metadata now
  (⟨dictSet reg.servers name server⟩, server)

/-- Embedding of `MCPRegistry.unregister` (registry.py, lines 116-127). -/
def MCPRegistry.unregister (reg : MCPRegistry) (name : String) :
    MCPRegistry × Bool :=
  if (dictGet reg.servers name).isSome then
    (⟨dictDel reg.servers name⟩, true)
  else (reg, false)

/-- Embedding of `MCPRegistry.get_server` (registry.py, lines 129-133). -/
def MCPRegistry.get_server (reg : MCPRegistry) (name : String) :
    Option ServerDict :=
  (dictGet reg.servers name).map MCPServerInfo.to_dict

/-- Embedding of `MCPRegistry.list_servers` (registry.py, lines 135-137). -/
def MCPRegistry.list_servers (reg : MCPRegistry) : List ServerDict :=
  reg.servers.map (fun p => p.2.to_dict)

/-- One element of the `list_all_tools` output: the tool's own keys merged
with the annotations `"server": server.name` and
`"server_status": server.status`. -/
structure AnnotatedTool where
  server : String
  server_status : String
  name : Option String := none
  description : Option String := none
  deriving Repr, DecidableEq

/-- Embedding of `MCPRegistry.list_all_tools` (registry.py, lines
139-149). -/
def MCPRegistry.list_all_tools (reg : MCPRegistry) : List AnnotatedTool :=
  reg.servers.flatMap (fun p =>
    p.2.tools.map (fun t =>
      { server := p.2.name
        server_status := p.2.status
        name := t.name
        description := t.description }))

/-- Does `server.tools` contain a tool whose "name" key equals
`tool_name` (the inner loop of `find_tool_server`)? -/
def serverDeclaresTool (s : MCPServerInfo) (tool_name : String) : Bool :=
  s.tools.any (fun t => t.name == some tool_name)

/-- Embedding of `MCPRegistry.find_tool_server` (registry.py, lines
185-191): first server, in dict iteration (insertion) order, declaring an
exact-name match; the server's `name` field is returned. -/
def MCPRegistry.find_tool_server (reg : MCPRegistry) (tool_name : String) :
    Option String :=
  (reg.servers.find? (fun p => serverDeclaresTool p.2 tool_name)).map
    (fun p => p.2.name)

/-- First-occurrence in-place update of the record stored at `name`, as
`update_server_status` performs it (only `status` and
`last_health_check` change). -/
def updEntry (name status : String) (now : Nat) :
    List (String × MCPServerInfo) → List (String × MCPServerInfo)
  | [] => []
  | p :: rest =>
    if p.1 == name then
      (p.1, { p.2 with status := status, last_health_check := now }) :: rest
    else p :: updEntry name status now rest

/-- Embedding of `MCPRegistry.update_server_status` (registry.py, lines
193-201). -/
def MCPRegistry.update_server_status (reg : MCPRegistry)
    (name status : String) (now : Nat) : MCPRegistry × Bool :=
  if (dictGet reg.servers name).isSome then
    (⟨updEntry name status now reg.servers⟩, true)
  else (reg, false)

/-- The JSON body of a provider's response, restricted to the fields the
router reads: whether a top-level "error" key is present (and, if so, its
optional "message" field), and the "result" sub-object seen as a map from
keys (such as "content" or "contents") to payload lists.  Payload items
are never interpreted by the gateway and are modelled as strings.
`result.get("result", \x7b\x7d)` makes an absent "result" key
indistinguishable from an empty object, so an empty map models both. -/
structure RpcBody where
  errorPresent : Bool := false
  errorMessage : Option String := none
  result : List (String × List String) := []
  deriving Repr, DecidableEq

/-- Outcome of the single outbound HTTP request a router method issues:
a response (status code, elapsed milliseconds, JSON body), an
`httpx.ConnectError`, an `httpx.TimeoutException`, or any other
exception. -/
inductive NetOutcome where
  | response (status : Nat) (elapsedMs : Nat) (body : RpcBody)
  | connectError
  | timeout
  | otherFailure (msg : String)
  deriving Repr, DecidableEq

/-- `httpx.Response.raise_for_status` raises `HTTPStatusError` exactly for
a status code outside the 2xx range. -/
def statusIsSuccess (status : Nat) : Bool :=
  200 ≤ status && status < 300

/-- The exceptions the router can raise, as seen by its callers. -/
inductive CallError where
  | serverNotFound (name : String)
  | serverUnavailable (name status : String)
  | unsupportedTransport (transport : String)
  | httpStatusError (status : Nat)
  | connectError
  | timeoutError
  | remoteError (msg : String)
  | otherError (msg : String)
  deriving Repr, DecidableEq

/-- Python `str(e)` for each modelled exception (the httpx-generated
texts are abstracted; the `ValueError` texts follow the source's
f-strings). -/
def CallError.toMessage : CallError → String
  | .serverNotFound n => "Server not found: " ++ n
  | .serverUnavailable n st =>
      "Server " ++ n ++ " is not available (status: " ++ st ++ ")"
  | .unsupportedTransport t => "Unsupported transport: " ++ t
  | .httpStatusError st => "HTTP status error: " ++ toString st
  | .connectError => "Connection error"
  | .timeoutError => "Request timed out"
  | .remoteError m => m
  | .otherError m => m

/-- Embedding of `MCPRouter.call_tool` (router.py, lines 34-95).  The JSON
envelope built on lines 53-65 only travels over the wire, which the
`NetOutcome` oracle abstracts, so `arguments`, `session_id` and
`trace_id` do not appear.  Control flow: absent server and non-available
status fail before any HTTP request; a non-2xx response
(`HTTPStatusError` from `raise_for_status`) marks the server "degraded"
and re-raises; a `ConnectError` marks it "unavailable" and re-raises;
every other exception (including timeouts, a body-level "error" key, and
an unsupported transport) re-raises with no status change. -/
def MCPRouter.call_tool (reg : MCPRegistry) (server_name tool_name : String)
    (net : NetOutcome) (now : Nat) :
    MCPRegistry × Except CallError (List String) :=
  match dictGet reg.servers server_name with
  | none => (reg, .error (.serverNotFound server_name))
  | some server =>
    if server.status != "available" then
      (reg, .error (.serverUnavailable server_name server.status))
    else if server.transport == "http" then
      match net with
      | .response status _ body =>
        if statusIsSuccess status then
          if body.errorPresent then
            (reg, .error (.remoteError (body.errorMessage.getD "Unknown error")))
          else
            (reg, .ok ((dictGet body.result "content").getD []))
        else
          ((reg.update_server_status server_name "degraded" now).1,
           .error (.httpStatusError status))
      | .connectError =>
          ((reg.update_server_status server_name "unavailable" now).1,
           .error .connectError)
      | .timeout => (reg, .error .timeoutError)
      | .otherFailure msg => (reg, .error (.otherError msg))
    else
      (reg, .error (.unsupportedTransport server.transport))
  -- the `tool_name` argument only enters the wire envelope
  -- (params.name), which the oracle abstracts

/-- Embedding of `MCPRouter.read_resource` (router.py, lines 97-138).
Unlike `call_tool` there is no `server.status` guard, and the only
exception handler is a generic log-and-reraise: no registry update
happens on any failure.  `session_id` is accepted and unused in the
source body.  The success value is `result.get("result", \x7b\x7d)
.get("contents", [])`. -/
def MCPRouter.read_resource (reg : MCPRegistry) (server_name uri : String)
    (session_id : Option String) (net : NetOutcome) :
    MCPRegistry × Except CallError (List String) :=
  match dictGet reg.servers server_name with
  | none => (reg, .error (.serverNotFound server_name))
  | some server =>
    if server.transport == "http" then
      match net with
      | .response status _ body =>
        if statusIsSuccess status then
          if body.errorPresent then
            (reg, .error (.remoteError (body.errorMessage.getD "Unknown error")))
          else
            (reg, .ok ((dictGet body.result "contents").getD []))
        else
          (reg, .error (.httpStatusError status))
      | .connectError => (reg, .error .connectError)
      | .timeout => (reg, .error .timeoutError)
      | .otherFailure msg => (reg, .error (.otherError msg))
    else
      (reg, .error (.unsupportedTransport server.transport))
  -- `uri` and `session_id` only enter the wire envelope

/-- The value returned by `check_server_health` (a JSON dict whose keys
vary by case; absent keys are `none`). -/
structure HealthResult where
  name : String
  status : String
  response_time_ms : Option Nat := none
  status_code : Option Nat := none
  error : Option String := none
  transport : Option String := none
  deriving Repr, DecidableEq

/-- Embedding of `MCPRouter.check_server_health` (router.py, lines
173-214): an unknown name reports "not_found" with no registry change; on
http transport, a 200 response writes "available", any other status
writes "degraded", a `ConnectError` writes "unavailable" with error
"Connection refused", a `TimeoutException` writes "degraded" with error
"Timeout", and any other exception writes "unavailable" with the
exception text; a non-http transport reports "unknown" with no registry
change.  Every write goes through `update_server_status` and is
unconditional in the previous status. -/
def MCPRouter.check_server_health (reg : MCPRegistry) (server_name : String)
    (net : NetOutcome) (now : Nat) : MCPRegistry × HealthResult :=
  match dictGet reg.servers server_name with
  | none => (reg, { name := server_name, status := "not_found" })
  | some server =>
    if server.transport == "http" then
      match net with
      | .response status elapsedMs _ =>
        if status == 200 then
          ((reg.update_server_status server_name "available" now).1,
           { name := server_name, status := "available",
             response_time_ms := some elapsedMs })
        else
          ((reg.update_server_status server_name "degraded" now).1,
           { name := server_name, status := "degraded",
             status_code := some status })
      | .connectError =>
          ((reg.update_server_status server_name "unavailable" now).1,
           { name := server_name, status := "unavailable",
             error := some "Connection refused" })
      | .timeout =>
          ((reg.update_server_status server_name "degraded" now).1,
           { name := server_name, status := "degraded",
             error := some "Timeout" })
      | .otherFailure msg =>
          ((reg.update_server_status server_name "unavailable" now).1,
           { name := server_name, status := "unavailable",
             error := some msg })
    else
      (reg, { name := server_name, status := "unknown",
              transport := some server.transport })

/-- Embedding of the `MCPToolCall` request model (main.py): one tool-call
request of the gateway API. -/
structure MCPToolCall where
  server : Option String := none
  tool : String
  arguments : List (String × String) := []
  session_id : Option String := none
  trace_id : Option String := none
  deriving Repr, DecidableEq

/-- Embedding of the `MCPResponse` model (main.py): the result object the
gateway always returns for a single tool call. -/
structure MCPResponse where
  id : String
  success : Bool
  result : Option (List String) := none
  error : Option String := none
  server : Option String := none
  execution_time_ms : Option Nat := none
  deriving Repr, DecidableEq

/-- Embedding of the `MCPBatchRequest` model (main.py). -/
structure MCPBatchRequest where
  requests : List MCPToolCall
  parallel : Bool := true
  deriving Repr, DecidableEq

/-- Python `x or d` for an optional string `x`: `None` and `""` are both
falsy and fall through to `d`. -/
def pyOr (s : Option String) (d : String) : String :=
  match s with
  | some t => if t == "" then d else t
  | none => d

/-- Python truthiness of an optional string: `None` and `""` are falsy. -/
def optTruthy (s : Option String) : Bool :=
  match s with
  | some t => t != ""
  | none => false

/-- Per-call environment of one gateway tool call: the network oracle for
its outbound request, the `uuid4()` drawn if the request carries no
trace id, the wall-clock time, and the measured execution time. -/
structure CallEnv where
  net : NetOutcome
  genId : String
  now : Nat
  elapsedMs : Nat
  deriving Repr, DecidableEq

/-- Embedding of the gateway endpoint `call_tool` (main.py, lines
172-221).  `request_id` is `request.trace_id or str(uuid4())`.  If
`request.server` is falsy the server is auto-discovered via
`find_tool_server`; a falsy discovery result returns an inline
tool-not-found failure (no `execution_time_ms`).  Otherwise the router is
invoked; its return value yields `success=True` with the result and
server name, and any raised exception is caught and converted to
`success=False` with `error=str(e)` (the `server` field stays `None`).
This function is total: no exception escapes it. -/
def Main.resolveServer (reg : MCPRegistry) (req : MCPToolCall) :
    Option String :=
  if optTruthy req.server then req.server
  else reg.find_tool_server req.tool

def Main.call_tool (reg : MCPRegistry) (req : MCPToolCall) (env : CallEnv) :
    MCPRegistry × MCPResponse :=
  if optTruthy (Main.resolveServer reg req) then
    match MCPRouter.call_tool reg ((Main.resolveServer reg req).getD "")
        req.tool env.net env.now with
    | (reg2, .ok content) =>
      (reg2, { id := pyOr req.trace_id env.genId, success := true,
               result := some content,
               server := some ((Main.resolveServer reg req).getD ""),
               execution_time_ms := some env.elapsedMs })
    | (reg2, .error e) =>
      (reg2, { id := pyOr req.trace_id env.genId, success := false,
               error := some e.toMessage,
               execution_time_ms := some env.elapsedMs })
  else
    (reg, { id := pyOr req.trace_id env.genId, success := false,
            error := some ("Tool \x27" ++ req.tool ++
              "\x27 not found on any registered server") })

/-- Parallel branch of `batch_call`: `asyncio.gather` over one `call_tool`
task per request, results in request order.  Each task is modelled
against the registry snapshot at fan-out time (the cooperative
interleaving of the tasks' status writes is not modelled; no claim
depends on it).  The `gather(..., return_exceptions=True)` conversion of
exceptions into error responses is vacuous here because `Main.call_tool`
is total. -/
def Main.batch_par (reg : MCPRegistry) (reqs : List MCPToolCall)
    (env : Nat → CallEnv) (i : Nat) : List MCPResponse :=
  match reqs with
  | [] => []
  | r :: rest =>
    (Main.call_tool reg r (env i)).2 :: Main.batch_par reg rest env (i + 1)

/-- Sequential branch of `batch_call`: one `call_tool` after the other in
request order, each seeing the registry state left by its predecessor. -/
def Main.batch_seq (reg : MCPRegistry) (reqs : List MCPToolCall)
    (env : Nat → CallEnv) (i : Nat) : List MCPResponse :=
  match reqs with
  | [] => []
  | r :: rest =>
    let step := Main.call_tool reg r (env i)
    step.2 :: Main.batch_seq step.1 rest env (i + 1)

/-- Embedding of the gateway endpoint `batch_call` (main.py, lines
224-245): the `results` list of its response. -/
def Main.batch_call (reg : MCPRegistry) (breq : MCPBatchRequest)
    (env : Nat → CallEnv) : List MCPResponse :=
  if breq.parallel then Main.batch_par reg breq.requests env 0
  else Main.batch_seq reg breq.requests env 0

/-! Reduction lemmas for the embedded dict operations. -/

theorem dictGet_nil {α : Type} (k : String) :
    dictGet ([] : List (String × α)) k = none := rfl

theorem dictGet_cons {α : Type} (p : String × α) (rest : List (String × α))
    (k : String) :
    dictGet (p :: rest) k = if p.1 = k then some p.2 else dictGet rest k := by
  by_cases h : p.1 = k
  · simp [dictGet, List.find?, h]
  · have hb : (p.1 == k) = false := by simp [h]
    simp [dictGet, List.find?, h, hb]

theorem dictSet_cons_hit {α : Type} (p : String × α)
    (rest : List (String × α)) (k : String) (v : α) (h : p.1 = k) :
    dictSet (p :: rest) k v = (k, v) :: rest := by
  simp [dictSet, h]

theorem dictSet_cons_miss {α : Type} (p : String × α)
    (rest : List (String × α)) (k : String) (v : α) (h : p.1 ≠ k) :
    dictSet (p :: rest) k v = p :: dictSet rest k v := by
  simp [dictSet, h]

theorem dictDel_cons_hit {α : Type} (p : String × α)
    (rest : List (String × α)) (k : String) (h : p.1 = k) :
    dictDel (p :: rest) k = rest := by
  simp [dictDel, h]

theorem dictDel_cons_miss {α : Type} (p : String × α)
    (rest : List (String × α)) (k : String) (h : p.1 ≠ k) :
    dictDel (p :: rest) k = p :: dictDel rest k := by
  simp [dictDel, h]

theorem updEntry_cons_hit (p : String × MCPServerInfo)
    (rest : List (String × MCPServerInfo)) (name status : String) (now : Nat)
    (h : p.1 = name) :
    updEntry name status now (p :: rest) =
      (p.1, { p.2 with status := status, last_health_check := now }) :: rest := by
  simp [updEntry, h]

theorem updEntry_cons_miss (p : String × MCPServerInfo)
    (rest : List (String × MCPServerInfo)) (name status : String) (now : Nat)
    (h : p.1 ≠ name) :
    updEntry name status now (p :: rest) = p :: updEntry name status now rest := by
  simp [updEntry, h]

/-! Lookup / update / delete interaction lemmas. -/

theorem dictGet_dictSet_self {α : Type} (d : List (String × α)) (k : String)
    (v : α) : dictGet (dictSet d k v) k = some v := by
  induction d with
  | nil => simp [dictSet, dictGet_cons]
  | cons p rest ih =>
    by_cases h : p.1 = k
    · rw [dictSet_cons_hit p rest k v h, dictGet_cons]
      simp
    · rw [dictSet_cons_miss p rest k v h, dictGet_cons, if_neg h]
      exact ih

theorem dictGet_dictSet_ne {α : Type} (d : List (String × α)) (k k2 : String)
    (v : α) (h : k2 ≠ k) : dictGet (dictSet d k v) k2 = dictGet d k2 := by
  induction d with
  | nil => simp [dictSet, dictGet_cons, dictGet_nil, Ne.symm h]
  | cons p rest ih =>
    by_cases hp : p.1 = k
    · rw [dictSet_cons_hit p rest k v hp, dictGet_cons, dictGet_cons]
      rw [if_neg (fun hh => h hh.symm), if_neg (fun hh => h (hp ▸ hh.symm))]
    · rw [dictSet_cons_miss p rest k v hp, dictGet_cons, dictGet_cons, ih]

theorem dictGet_updEntry_self (d : List (String × MCPServerInfo))
    (name status : String) (now : Nat) (s : MCPServerInfo)
    (h : dictGet d name = some s) :
    dictGet (updEntry name status now d) name =
      some { s with status := status, last_health_check := now } := by
  induction d with
  | nil => simp [dictGet_nil] at h
  | cons p rest ih =>
    by_cases hp : p.1 = name
    · rw [dictGet_cons, if_pos hp] at h
      cases h
      rw [updEntry_cons_hit p rest name status now hp, dictGet_cons, if_pos hp]
    · rw [dictGet_cons, if_neg hp] at h
      rw [updEntry_cons_miss p rest name status now hp, dictGet_cons, if_neg hp]
      exact ih h

theorem dictGet_updEntry_ne (d : List (String × MCPServerInfo))
    (name status k : String) (now : Nat) (h : k ≠ name) :
    dictGet (updEntry name status now d) k = dictGet d k := by
  induction d with
  | nil => simp [updEntry]
  | cons p rest ih =>
    by_cases hp : p.1 = name
    · rw [updEntry_cons_hit p rest name status now hp, dictGet_cons, dictGet_cons]
      rw [if_neg (fun hh => h (hp ▸ hh.symm)), if_neg (fun hh => h (hp ▸ hh.symm))]
    · rw [updEntry_cons_miss p rest name status now hp, dictGet_cons, dictGet_cons, ih]

theorem mem_dictDel {α : Type} (d : List (String × α)) (k : String)
    (q : String × α) (h : q ∈ dictDel d k) : q ∈ d := by
  induction d with
  | nil => simpa [dictDel] using h
  | cons p rest ih =>
    by_cases hp : p.1 = k
    · rw [dictDel_cons_hit p rest k hp] at h
      exact List.mem_cons_of_mem p h
    · rw [dictDel_cons_miss p rest k hp, List.mem_cons] at h
      rcases h with h | h
      · exact h ▸ List.mem_cons_self p rest
      · exact List.mem_cons_of_mem p (ih h)

theorem mem_dictDel_key_ne {α : Type} (d : List (String × α)) (k : String)
    (hnd : (d.map (fun p => p.1)).Nodup) (q : String × α)
    (h : q ∈ dictDel d k) : q.1 ≠ k := by
  induction d with
  | nil => simp [dictDel] at h
  | cons p rest ih =>
    simp only [List.map_cons, List.nodup_cons] at hnd
    by_cases hp : p.1 = k
    · rw [dictDel_cons_hit p rest k hp] at h
      intro hq
      have hmem : q.1 ∈ rest.map (fun r => r.1) :=
        List.mem_map_of_mem (fun r => r.1) h
      rw [hq, ← hp] at hmem
      exact hnd.1 hmem
    · rw [dictDel_cons_miss p rest k hp, List.mem_cons] at h
      rcases h with h | h
      · exact h ▸ hp
      · exact ih hnd.2 h

theorem mem_dictSet_cases {α : Type} (d : List (String × α)) (k : String)
    (v : α) (q : String × α) (h : q ∈ dictSet d k v) : q ∈ d ∨ q.1 = k := by
  induction d with
  | nil =>
    simp only [dictSet, List.mem_singleton] at h
    exact Or.inr (h ▸ rfl)
  | cons p rest ih =>
    by_cases hp : p.1 = k
    · rw [dictSet_cons_hit p rest k v hp, List.mem_cons] at h
      rcases h with h | h
      · exact Or.inr (h ▸ rfl)
      · exact Or.inl (List.mem_cons_of_mem p h)
    · rw [dictSet_cons_miss p rest k v hp, List.mem_cons] at h
      rcases h with h | h
      · exact Or.inl (h ▸ List.mem_cons_self p rest)
      · rcases ih h with h2 | h2
        · exact Or.inl (List.mem_cons_of_mem p h2)
        · exact Or.inr h2

theorem keys_nodup_dictSet {α : Type} (d : List (String × α)) (k : String)
    (v : α) (hnd : (d.map (fun p => p.1)).Nodup) :
    ((dictSet d k v).map (fun p => p.1)).Nodup := by
  induction d with
  | nil => simp [dictSet]
  | cons p rest ih =>
    simp only [List.map_cons, List.nodup_cons] at hnd
    by_cases hp : p.1 = k
    · rw [dictSet_cons_hit p rest k v hp]
      simp only [List.map_cons, List.nodup_cons]
      exact ⟨hp ▸ hnd.1, hnd.2⟩
    · rw [dictSet_cons_miss p rest k v hp]
      simp only [List.map_cons, List.nodup_cons]
      refine ⟨?_, ih hnd.2⟩
      intro hmem
      rcases List.mem_map.mp hmem with ⟨q, hq, hq1⟩
      rcases mem_dictSet_cases rest k v q hq with h2 | h2
      · exact hnd.1 (hq1 ▸ List.mem_map_of_mem (fun r => r.1) h2)
      · exact hp (hq1 ▸ h2 ▸ rfl)

theorem names_dictSet (d : List (String × MCPServerInfo)) (k : String)
    (v : MCPServerInfo) (hv : v.name = k)
    (hd : ∀ p ∈ d, p.2.name = p.1) :
    ∀ p ∈ dictSet d k v, p.2.name = p.1 := by
  induction d with
  | nil =>
    intro p hp
    simp only [dictSet, List.mem_singleton] at hp
    simp [hp, hv]
  | cons q rest ih =>
    intro p hp
    by_cases hq : q.1 = k
    · rw [dictSet_cons_hit q rest k v hq, List.mem_cons] at hp
      rcases hp with hp | hp
      · simp [hp, hv]
      · exact hd p (List.mem_cons_of_mem q hp)
    · rw [dictSet_cons_miss q rest k v hq, List.mem_cons] at hp
      rcases hp with hp | hp
      · exact hd p (hp ▸ List.mem_cons_self q rest)
      · exact ih (fun r hr => hd r (List.mem_cons_of_mem q hr)) p hp

/-! Characterization of first-match search and of `list_servers` after an
overwrite. -/

theorem find_tool_server_eq_none_iff (reg : MCPRegistry) (t : String) :
    reg.find_tool_server t = none ↔
      ∀ p ∈ reg.servers, serverDeclaresTool p.2 t = false := by
  simp only [MCPRegistry.find_tool_server, Option.map_eq_none',
    List.find?_eq_none, Bool.not_eq_true]

theorem list_find_eq_get {α : Type} (l : List α) (p : α → Bool) (i : Nat)
    (h : i < l.length) (hp : p (l.get ⟨i, h⟩) = true)
    (hprev : ∀ j (hj : j < i), p (l.get ⟨j, Nat.lt_trans hj h⟩) = false) :
    l.find? p = some (l.get ⟨i, h⟩) := by
  induction l generalizing i with
  | nil => exact absurd h (Nat.not_lt_zero i)
  | cons a tl ih =>
    cases i with
    | zero =>
      have ha : p a = true := by simpa using hp
      rw [List.find?_cons_of_pos _ ha]
      simp
    | succ n =>
      have ha : p a = false := by simpa using hprev 0 (Nat.succ_pos n)
      rw [List.find?_cons_of_neg _ (by simp [ha])]
      have h2 : n < tl.length := Nat.lt_of_succ_lt_succ h
      have hres := ih n h2 (by simpa using hp) ?_
      · simpa using hres
      · intro j hj
        simpa using hprev (j + 1) (Nat.succ_lt_succ hj)

theorem list_servers_filter_dictSet
    (d : List (String × MCPServerInfo)) (k : String) (v : MCPServerInfo)
    (hv : v.name = k) (hnd : (d.map (fun p => p.1)).Nodup)
    (hnm : ∀ p ∈ d, p.2.name = p.1) :
    ((dictSet d k v).map (fun p => p.2.to_dict)).filter
      (fun x => x.name == k) = [v.to_dict] := by
  induction d with
  | nil => simp [dictSet, MCPServerInfo.to_dict, hv]
  | cons p rest ih =>
    simp only [List.map_cons, List.nodup_cons] at hnd
    by_cases hp : p.1 = k
    · rw [dictSet_cons_hit p rest k v hp]
      simp only [List.map_cons, List.filter_cons]
      rw [if_pos (by simp [MCPServerInfo.to_dict, hv])]
      have hrest : (rest.map (fun q => q.2.to_dict)).filter
          (fun x => x.name == k) = [] := by
        rw [List.filter_eq_nil_iff]
        intro x hx
        rcases List.mem_map.mp hx with ⟨q, hq, hq2⟩
        have hqname : q.2.name = q.1 := hnm q (List.mem_cons_of_mem p hq)
        have hqk : q.1 ≠ k := by
          intro hc
          exact hnd.1 (hp ▸ hc ▸ List.mem_map_of_mem (fun r => r.1) hq)
        simp [← hq2, MCPServerInfo.to_dict, hqname, hqk]
      rw [hrest]
    · rw [dictSet_cons_miss p rest k v hp]
      simp only [List.map_cons, List.filter_cons]
      rw [if_neg (by simp [MCPServerInfo.to_dict,
        hnm p (List.mem_cons_self p rest), hp])]
      exact ih hnd.2 (fun q hq => hnm q (List.mem_cons_of_mem p hq))

/-! Shape of gateway responses and of batch results. -/

/-- A gateway response is either a success carrying no error, or a failure
carrying an inline error message. -/
def responseWellFormed (resp : MCPResponse) : Prop :=
  (resp.success = true ∧ resp.error = none) ∨
  (resp.success = false ∧ resp.error.isSome = true)

instance (resp : MCPResponse) : Decidable (responseWellFormed resp) := by
  unfold responseWellFormed; infer_instance

theorem Main.call_tool_shape (reg : MCPRegistry) (req : MCPToolCall)
    (env : CallEnv) : responseWellFormed (Main.call_tool reg req env).2 := by
  unfold responseWellFormed Main.call_tool
  split
  · split
    · left; exact ⟨rfl, rfl⟩
    · right; exact ⟨rfl, rfl⟩
  · right; exact ⟨rfl, rfl⟩

theorem Main.call_tool_id (reg : MCPRegistry) (req : MCPToolCall)
    (env : CallEnv) :
    (Main.call_tool reg req env).2.id = pyOr req.trace_id env.genId := by
  unfold Main.call_tool
  split
  · split <;> rfl
  · rfl

theorem Main.batch_par_id (reg : MCPRegistry) (reqs : List MCPToolCall)
    (env : Nat → CallEnv) (j i : Nat) :
    ((Main.batch_par reg reqs env j)[i]?).map (fun r => r.id) =
      (reqs[i]?).map (fun r => pyOr r.trace_id (env (j + i)).genId) := by
  induction reqs generalizing reg j i with
  | nil => simp [Main.batch_par]
  | cons r rest ih =>
    cases i with
    | zero => simp [Main.batch_par, Main.call_tool_id]
    | succ n =>
      simp only [Main.batch_par, List.getElem?_cons_succ]
      have harith : j + 1 + n = j + (n + 1) := by omega
      rw [ih reg (j + 1) n, harith]

theorem Main.batch_seq_id (reg : MCPRegistry) (reqs : List MCPToolCall)
    (env : Nat → CallEnv) (j i : Nat) :
    ((Main.batch_seq reg reqs env j)[i]?).map (fun r => r.id) =
      (reqs[i]?).map (fun r => pyOr r.trace_id (env (j + i)).genId) := by
  induction reqs generalizing reg j i with
  | nil => simp [Main.batch_seq]
  | cons r rest ih =>
    cases i with
    | zero => simp [Main.batch_seq, Main.call_tool_id]
    | succ n =>
      simp only [Main.batch_seq, List.getElem?_cons_succ]
      have harith : j + 1 + n = j + (n + 1) := by omega
      rw [ih (Main.call_tool reg r (env j)).1 (j + 1) n, harith]

theorem Main.batch_par_length (reg : MCPRegistry) (reqs : List MCPToolCall)
    (env : Nat → CallEnv) (i : Nat) :
    (Main.batch_par reg reqs env i).length = reqs.length := by
  induction reqs generalizing reg i with
  | nil => rfl
  | cons r rest ih => simp [Main.batch_par, ih]

theorem Main.batch_seq_length (reg : MCPRegistry) (reqs : List MCPToolCall)
    (env : Nat → CallEnv) (i : Nat) :
    (Main.batch_seq reg reqs env i).length = reqs.length := by
  induction reqs generalizing reg i with
  | nil => rfl
  | cons r rest ih => simp [Main.batch_seq, ih]

theorem Main.batch_par_shape (reg : MCPRegistry) (reqs : List MCPToolCall)
    (env : Nat → CallEnv) (i : Nat) :
    ∀ resp ∈ Main.batch_par reg reqs env i, responseWellFormed resp := by
  induction reqs generalizing reg i with
  | nil => intro resp h; simp [Main.batch_par] at h
  | cons r rest ih =>
    intro resp h
    rw [Main.batch_par, List.mem_cons] at h
    rcases h with h | h
    · exact h ▸ Main.call_tool_shape reg r (env i)
    · exact ih _ _ resp h

theorem Main.batch_seq_shape (reg : MCPRegistry) (reqs : List MCPToolCall)
    (env : Nat → CallEnv) (i : Nat) :
    ∀ resp ∈ Main.batch_seq reg reqs env i, responseWellFormed resp := by
  induction reqs generalizing reg i with
  | nil => intro resp h; simp [Main.batch_seq] at h
  | cons r rest ih =>
    intro resp h
    rw [Main.batch_seq, List.mem_cons] at h
    rcases h with h | h
    · exact h ▸ Main.call_tool_shape reg r (env i)
    · exact ih _ _ resp h

/-! Concrete fixtures used by the witness theorems. -/

/-- A registered server with the given name and tool list, available over
http. -/
def sampleServer (name : String) (tools : List Tool) : MCPServerInfo :=
  { name := name, version := "1.0.0", description := "d",
    endpoint := "http://e", transport := "http", tools := tools,
    resources := [], metadata := [], status := "available",
    last_health_check := 0, registered_at := 0 }

/-- A network oracle answering 200 with a one-item content payload. -/
def okEnv : CallEnv :=
  { net := .response 200 1 { result := [("content", ["ok"])] },
    genId := "g", now := 7, elapsedMs := 2 }

def w1Reg : MCPRegistry :=
  ⟨[("s1", sampleServer "s1" [{ name := some "t1" }]),
    ("s3", sampleServer "s3" [{ name := some "t3" }])]⟩

def w1Reqs : List MCPToolCall :=
  [{ server := some "s1", tool := "t1" },
   { server := some "nope", tool := "t2" },
   { server := some "s3", tool := "t3" }]

def w1Bad : MCPResponse :=
  { id := "g", success := false, result := none,
    error := some "Server not found: nope", server := none,
    execution_time_ms := some 2 }

/-- C1: for every list of N tool-call requests, `batch_call` returns
exactly N results, positionally corresponding to the requests (result i
echoes request i's trace id, or the drawn uuid when absent), and any
failure of an individual call is converted into a same-shaped inline
error result (`success=false` with an error message) instead of escaping
or short-circuiting the batch, both when `parallel` is true and when it
is false. -/
theorem C1_batch_call_isolates_failures (reg : MCPRegistry)
    (breq : MCPBatchRequest) (env : Nat → CallEnv) :
    (Main.batch_call reg breq env).length = breq.requests.length ∧
    (∀ resp ∈ Main.batch_call reg breq env, responseWellFormed resp) ∧
    (∀ i, ((Main.batch_call reg breq env)[i]?).map (fun r => r.id) =
      (breq.requests[i]?).map (fun r => pyOr r.trace_id (env i).genId)) := by
  refine ⟨?_, ?_, ?_⟩
  · unfold Main.batch_call
    split
    · exact Main.batch_par_length reg breq.requests env 0
    · exact Main.batch_seq_length reg breq.requests env 0
  · unfold Main.batch_call
    split
    · exact Main.batch_par_shape reg breq.requests env 0
    · exact Main.batch_seq_shape reg breq.requests env 0
  · intro i
    unfold Main.batch_call
    split
    · simpa using Main.batch_par_id reg breq.requests env 0 i
    · simpa using Main.batch_seq_id reg breq.requests env 0 i

/-- C1 witness: a 3-request batch whose second request targets the
nonexistent server "nope" still yields 3 results under both modes, and
its failing member is a well-shaped inline error. -/
theorem C1_batch_call_isolates_failures_witness :
    (Main.batch_call w1Reg { requests := w1Reqs, parallel := true }
      (fun _ => okEnv)).length = 3 ∧
    (Main.batch_call w1Reg { requests := w1Reqs, parallel := false }
      (fun _ => okEnv)).length = 3 ∧
    w1Bad ∈ Main.batch_call w1Reg { requests := w1Reqs, parallel := true }
      (fun _ => okEnv) ∧
    responseWellFormed w1Bad := by
  refine ⟨?_, ?_, by decide, ?_⟩
  · exact (C1_batch_call_isolates_failures w1Reg
      { requests := w1Reqs, parallel := true } (fun _ => okEnv)).1.trans
      (by decide)
  · exact (C1_batch_call_isolates_failures w1Reg
      { requests := w1Reqs, parallel := false } (fun _ => okEnv)).1.trans
      (by decide)
  · exact (C1_batch_call_isolates_failures w1Reg
      { requests := w1Reqs, parallel := true } (fun _ => okEnv)).2.1 w1Bad
      (by decide)

/-- C5: `call_tool` fails with a server-not-found error whenever the
server is absent, and with a server-unavailable error whenever it exists
with a status other than "available"; in both cases the result is the
same whatever the network outcome (no HTTP request is consulted) and the
registry is returned unchanged. -/
theorem C5_call_tool_preflight_failures (reg : MCPRegistry)
    (server_name tool_name : String) (net : NetOutcome) (now : Nat) :
    (dictGet reg.servers server_name = none →
      MCPRouter.call_tool reg server_name tool_name net now =
        (reg, .error (.serverNotFound server_name))) ∧
    (∀ s, dictGet reg.servers server_name = some s →
      s.status ≠ "available" →
      MCPRouter.call_tool reg server_name tool_name net now =
        (reg, .error (.serverUnavailable server_name s.status))) := by
  constructor
  · intro h
    unfold MCPRouter.call_tool
    rw [h]
  · intro s hs hst
    unfold MCPRouter.call_tool
    rw [hs]
    have hb : (s.status != "available") = true := by simp [hst]
    simp [hb]

def w5Reg : MCPRegistry :=
  ⟨[("down", { sampleServer "down" [] with status := "degraded" })]⟩

/-- C5 witness: a request to an unknown name and a request to a degraded
provider both fail pre-dispatch with the registry unchanged. -/
theorem C5_call_tool_preflight_failures_witness :
    MCPRouter.call_tool w5Reg "ghost" "t" .connectError 3 =
      (w5Reg, .error (.serverNotFound "ghost")) ∧
    MCPRouter.call_tool w5Reg "down" "t" .connectError 3 =
      (w5Reg, .error (.serverUnavailable "down" "degraded")) := by
  constructor
  · exact (C5_call_tool_preflight_failures w5Reg "ghost" "t"
      .connectError 3).1 (by decide)
  · exact (C5_call_tool_preflight_failures w5Reg "down" "t"
      .connectError 3).2 ({ sampleServer "down" [] with status := "degraded" })
      (by decide) (by decide)

/-- C2: when the outbound call of `call_tool` fails at the HTTP level, the
provider's health is written into the registry before the failure
propagates — a non-2xx response sets its status to "degraded", a
connection failure sets it to "unavailable" — and the original exception
is returned to the caller as is (no retry, the single outcome decides the
result). -/
theorem C2_call_tool_marks_health_on_failure (reg : MCPRegistry)
    (server_name tool_name : String) (now : Nat) (s : MCPServerInfo)
    (hs : dictGet reg.servers server_name = some s)
    (hav : s.status = "available") (htr : s.transport = "http") :
    (∀ code elapsed body, statusIsSuccess code = false →
      (MCPRouter.call_tool reg server_name tool_name
          (.response code elapsed body) now).2 =
        .error (.httpStatusError code) ∧
      dictGet (MCPRouter.call_tool reg server_name tool_name
          (.response code elapsed body) now).1.servers server_name =
        some { s with status := "degraded", last_health_check := now }) ∧
    ((MCPRouter.call_tool reg server_name tool_name .connectError now).2 =
        .error .connectError ∧
      dictGet (MCPRouter.call_tool reg server_name tool_name
          .connectError now).1.servers server_name =
        some { s with status := "unavailable", last_health_check := now }) := by
  have hb : (s.status != "available") = false := by simp [hav]
  have htb : (s.transport == "http") = true := by simp [htr]
  have hupd : ∀ st, (reg.update_server_status server_name st now).1 =
      ⟨updEntry server_name st now reg.servers⟩ := by
    intro st
    unfold MCPRegistry.update_server_status
    rw [hs]
    rfl
  constructor
  · intro code elapsed body hcode
    unfold MCPRouter.call_tool
    rw [hs]
    simp only [hb, Bool.false_eq_true, if_false, htb,
      if_true, hcode, hupd]
    refine ⟨?_, dictGet_updEntry_self reg.servers server_name "degraded" now s hs⟩
    trivial
  · unfold MCPRouter.call_tool
    rw [hs]
    simp only [hb, Bool.false_eq_true, if_false, htb,
      if_true, hupd]
    refine ⟨?_, dictGet_updEntry_self reg.servers server_name "unavailable" now s hs⟩
    trivial

def w2Reg : MCPRegistry := ⟨[("s1", sampleServer "s1" [])]⟩

/-- C2 witness: a 500 response marks "s1" degraded and re-raises the HTTP
status error; a connection failure marks it unavailable and re-raises the
connection error. -/
theorem C2_call_tool_marks_health_on_failure_witness :
    ((MCPRouter.call_tool w2Reg "s1" "t" (.response 500 1 {}) 9).2 =
        .error (.httpStatusError 500) ∧
      dictGet (MCPRouter.call_tool w2Reg "s1" "t"
          (.response 500 1 {}) 9).1.servers "s1" =
        some { sampleServer "s1" [] with
          status := "degraded",
          last_health_check := 9 }) ∧
    ((MCPRouter.call_tool w2Reg "s1" "t" .connectError 9).2 =
        .error .connectError ∧
      dictGet (MCPRouter.call_tool w2Reg "s1" "t"
          .connectError 9).1.servers "s1" =
        some { sampleServer "s1" [] with
          status := "unavailable",
          last_health_check := 9 }) := by
  constructor
  · exact (C2_call_tool_marks_health_on_failure w2Reg "s1" "t" 9
      (sampleServer "s1" []) (by decide) rfl rfl).1 500 1 {} (by decide)
  · exact (C2_call_tool_marks_health_on_failure w2Reg "s1" "t" 9
      (sampleServer "s1" []) (by decide) rfl rfl).2

/-- C6: `find_tool_server` returns none exactly when no registered server
declares an exact-name match for the tool; and whenever position `i` in
the registry's iteration (insertion) order holds the first declaring
server, the result is that server's name — so a unique declarer is
returned, and duplicate declarers resolve to the earliest one.  The
function is pure in the registry value, so repeated calls on an unchanged
registry agree by definitional determinism. -/
theorem C6_find_tool_server_first_match (reg : MCPRegistry) (t : String) :
    (reg.find_tool_server t = none ↔
      ∀ p ∈ reg.servers, serverDeclaresTool p.2 t = false) ∧
    (∀ i (h : i < reg.servers.length),
      serverDeclaresTool (reg.servers.get ⟨i, h⟩).2 t = true →
      (∀ j (hj : j < i),
        serverDeclaresTool (reg.servers.get ⟨j, Nat.lt_trans hj h⟩).2 t
          = false) →
      reg.find_tool_server t = some (reg.servers.get ⟨i, h⟩).2.name) := by
  constructor
  · exact find_tool_server_eq_none_iff reg t
  · intro i h hp hprev
    unfold MCPRegistry.find_tool_server
    rw [list_find_eq_get reg.servers (fun p => serverDeclaresTool p.2 t)
      i h hp hprev]
    rfl

def w6Reg : MCPRegistry :=
  ⟨[("s1", sampleServer "s1" [{ name := some "only1" }]),
    ("s2", sampleServer "s2" [{ name := some "dup" }]),
    ("s3", sampleServer "s3" [{ name := some "dup" }])]⟩

/-- C6 witness: with "dup" declared by both "s2" and "s3", the first
declarer "s2" wins; a tool declared nowhere resolves to none. -/
theorem C6_find_tool_server_first_match_witness :
    MCPRegistry.find_tool_server w6Reg "dup" = some "s2" ∧
    MCPRegistry.find_tool_server w6Reg "zzz" = none := by
  constructor
  · have h : 1 < w6Reg.servers.length := by decide
    have hp : serverDeclaresTool (w6Reg.servers.get ⟨1, h⟩).2 "dup" = true := by
      show serverDeclaresTool (sampleServer "s2" [{ name := some "dup" }])
        "dup" = true
      decide
    have hprev : ∀ j (hj : j < 1),
        serverDeclaresTool (w6Reg.servers.get ⟨j, Nat.lt_trans hj h⟩).2 "dup"
          = false := by
      intro j hj
      have hj0 : j = 0 := Nat.lt_one_iff.mp hj
      subst hj0
      show serverDeclaresTool (sampleServer "s1" [{ name := some "only1" }])
        "dup" = false
      decide
    have hres := (C6_find_tool_server_first_match w6Reg "dup").2 1 h hp hprev
    have hname : (w6Reg.servers.get ⟨1, h⟩).2.name = "s2" := by
      show (sampleServer "s2" [{ name := some "dup" }]).name = "s2"
      rfl
    rw [hres, hname]
  · exact (C6_find_tool_server_first_match w6Reg "zzz").1.mpr (by decide)

/-- C3: `register` is total and overwrites: for any well-formed registry
state, after registering under `name`, `list_servers` holds exactly one
entry named `name`, and that entry carries exactly the newly supplied
fields — in particular its tools list is the new one (`tools or []`),
fully replacing any previous list rather than merging with it. -/
theorem C3_register_overwrites (reg : MCPRegistry)
    (name version description endpoint transport : String)
    (tools : Option (List Tool)) (resources : Option (List Resource))
    (metadata : Option (List (String × String))) (now : Nat)
    (hwf : reg.wf) :
    ((reg.register name version description endpoint transport tools
        resources metadata now).1.list_servers).filter
      (fun x => x.name == name) =
      [{ name := name, version := version, description := description,
         endpoint := endpoint, transport := transport,
         tools := tools.getD [], resources := resources.getD [],
         metadata := metadata.getD [], status := "available",
         last_health_check := now, registered_at := now }] := by
  exact list_servers_filter_dictSet reg.servers name
    (MCPServerInfo.make name version description endpoint transport tools
      resources metadata now) rfl hwf.1 hwf.2

def w3Reg : MCPRegistry :=
  ⟨[("a", { sampleServer "a" [{ name := some "old_tool" }] with
      status := "degraded" }),
    ("b", sampleServer "b" [{ name := some "b_tool" }])]⟩

/-- C3 witness: re-registering "a" with a new tools list leaves exactly
one "a" entry whose fields are the new ones (old tools list gone). -/
theorem C3_register_overwrites_witness :
    ((w3Reg.register "a" "2.0.0" "new" "http://new" "http"
        (some [{ name := some "new_tool" }]) none none 11).1.list_servers).filter
      (fun x => x.name == "a") =
      [{ name := "a", version := "2.0.0", description := "new",
         endpoint := "http://new", transport := "http",
         tools := [{ name := some "new_tool" }], resources := [],
         metadata := [], status := "available",
         last_health_check := 11, registered_at := 11 }] := by
  exact C3_register_overwrites w3Reg "a" "2.0.0" "new" "http://new" "http"
    (some [{ name := some "new_tool" }]) none none 11 (by decide)

/-- C9: after creation, `status` and `last_health_check` are the only
mutated fields: `update_server_status` on an unknown name returns false
with the registry unchanged; on a known name it returns true, rewrites
exactly that entry to the same record with the new status and refreshed
`last_health_check` (every other field literally carried over), and
leaves every other key's binding untouched; and `check_server_health`
either leaves the registry unchanged or changes it exactly through one
such `update_server_status` call. -/
theorem C9_status_update_frame (reg : MCPRegistry) (name status : String)
    (now : Nat) :
    (dictGet reg.servers name = none →
      reg.update_server_status name status now = (reg, false)) ∧
    (∀ s, dictGet reg.servers name = some s →
      (reg.update_server_status name status now).2 = true ∧
      dictGet (reg.update_server_status name status now).1.servers name =
        some { s with status := status, last_health_check := now } ∧
      ∀ k, k ≠ name →
        dictGet (reg.update_server_status name status now).1.servers k =
          dictGet reg.servers k) ∧
    (∀ net, (MCPRouter.check_server_health reg name net now).1 = reg ∨
      ∃ st, (MCPRouter.check_server_health reg name net now).1 =
        (reg.update_server_status name st now).1) := by
  refine ⟨?_, ?_, ?_⟩
  · intro h
    unfold MCPRegistry.update_server_status
    rw [h]
    rfl
  · intro s hs
    have hupd : reg.update_server_status name status now =
        (⟨updEntry name status now reg.servers⟩, true) := by
      unfold MCPRegistry.update_server_status
      rw [hs]
      rfl
    rw [hupd]
    exact ⟨rfl, dictGet_updEntry_self reg.servers name status now s hs,
      fun k hk => dictGet_updEntry_ne reg.servers name status k now hk⟩
  · intro net
    unfold MCPRouter.check_server_health
    cases hg : dictGet reg.servers name with
    | none => left; rfl
    | some server =>
      by_cases htr : (server.transport == "http") = true
      · simp only [htr, if_true]
        cases net with
        | response st e b =>
          by_cases h200 : (st == 200) = true
          · simp only [h200, if_true]
            exact Or.inr ⟨"available", rfl⟩
          · simp only [h200, Bool.false_eq_true, if_false]
            exact Or.inr ⟨"degraded", rfl⟩
        | connectError => exact Or.inr ⟨"unavailable", rfl⟩
        | timeout => exact Or.inr ⟨"degraded", rfl⟩
        | otherFailure msg => exact Or.inr ⟨"unavailable", rfl⟩
      · simp only [htr, Bool.false_eq_true, if_false]
        left
        trivial

def w9Reg : MCPRegistry := ⟨[("a", sampleServer "a" []),
  ("b", sampleServer "b" [{ name := some "bt" }])]⟩

/-- C9 witness: updating "a" to "degraded" flips only its status and
timestamp, returns true, leaves "b" untouched; an unknown name returns
false unchanged; a health check's registry effect factors through a
status update. -/
theorem C9_status_update_frame_witness :
    w9Reg.update_server_status "ghost" "degraded" 4 = (w9Reg, false) ∧
    (w9Reg.update_server_status "a" "degraded" 4).2 = true ∧
    dictGet (w9Reg.update_server_status "a" "degraded" 4).1.servers "a" =
      some { sampleServer "a" [] with
        status := "degraded",
        last_health_check := 4 } ∧
    dictGet (w9Reg.update_server_status "a" "degraded" 4).1.servers "b" =
      dictGet w9Reg.servers "b" ∧
    ((MCPRouter.check_server_health w9Reg "a" .connectError 4).1 = w9Reg ∨
      ∃ st, (MCPRouter.check_server_health w9Reg "a" .connectError 4).1 =
        (w9Reg.update_server_status "a" st 4).1) := by
  have h := C9_status_update_frame w9Reg "a" "degraded" 4
  have hknown := h.2.1 (sampleServer "a" []) (by decide)
  refine ⟨?_, hknown.1, hknown.2.1, hknown.2.2 "b" (by decide), h.2.2 .connectError⟩
  exact (C9_status_update_frame w9Reg "ghost" "degraded" 4).1 (by decide)

/-- C10: every `register` call stores a record whose status is
"available" and whose `last_health_check` and `registered_at` both equal
the registration time, and that record is what the registry then holds
under `name` — so re-registering a degraded or unavailable provider
silently resets its status and discards its prior health history and
original registration timestamp, whatever the previous record was. -/
theorem C10_register_resets_health (reg : MCPRegistry)
    (name version description endpoint transport : String)
    (tools : Option (List Tool)) (resources : Option (List Resource))
    (metadata : Option (List (String × String))) (now : Nat) :
    (reg.register name version description endpoint transport tools
      resources metadata now).2.status = "available" ∧
    (reg.register name version description endpoint transport tools
      resources metadata now).2.last_health_check = now ∧
    (reg.register name version description endpoint transport tools
      resources metadata now).2.registered_at = now ∧
    dictGet (reg.register name version description endpoint transport tools
      resources metadata now).1.servers name =
      some (reg.register name version description endpoint transport tools
        resources metadata now).2 := by
  exact ⟨rfl, rfl, rfl, dictGet_dictSet_self reg.servers name
    (MCPServerInfo.make name version description endpoint transport tools
      resources metadata now)⟩

/-- C4: for a registered http-transport provider, `check_server_health`
maps the probe outcome to a status and writes it into the registry with
no condition on the previous status: 200 yields "available"; any other
code yields "degraded" (carrying the status code); a connection failure
yields "unavailable" with error "Connection refused"; a timeout yields
"degraded" with error "Timeout"; and `get_server` on the resulting
registry returns the record rewritten to the new status with refreshed
`last_health_check`. -/
theorem C4_check_server_health_mapping (reg : MCPRegistry) (n : String)
    (now : Nat) (s : MCPServerInfo) (hs : dictGet reg.servers n = some s)
    (htr : s.transport = "http") :
    (∀ e b,
      (MCPRouter.check_server_health reg n (.response 200 e b) now).2 =
        { name := n, status := "available", response_time_ms := some e } ∧
      MCPRegistry.get_server
          (MCPRouter.check_server_health reg n (.response 200 e b) now).1 n =
        some ({ s with
          status := "available",
          last_health_check := now }).to_dict) ∧
    (∀ code e b, code ≠ 200 →
      (MCPRouter.check_server_health reg n (.response code e b) now).2 =
        { name := n, status := "degraded", status_code := some code } ∧
      MCPRegistry.get_server
          (MCPRouter.check_server_health reg n (.response code e b) now).1 n =
        some ({ s with
          status := "degraded",
          last_health_check := now }).to_dict) ∧
    ((MCPRouter.check_server_health reg n .connectError now).2 =
        { name := n, status := "unavailable",
          error := some "Connection refused" } ∧
      MCPRegistry.get_server
          (MCPRouter.check_server_health reg n .connectError now).1 n =
        some ({ s with
          status := "unavailable",
          last_health_check := now }).to_dict) ∧
    ((MCPRouter.check_server_health reg n .timeout now).2 =
        { name := n, status := "degraded", error := some "Timeout" } ∧
      MCPRegistry.get_server
          (MCPRouter.check_server_health reg n .timeout now).1 n =
        some ({ s with
          status := "degraded",
          last_health_check := now }).to_dict) := by
  have htb : (s.transport == "http") = true := by simp [htr]
  have hupd : ∀ st, (reg.update_server_status n st now).1 =
      ⟨updEntry n st now reg.servers⟩ := by
    intro st
    unfold MCPRegistry.update_server_status
    rw [hs]
    rfl
  have hget : ∀ st, MCPRegistry.get_server
      (⟨updEntry n st now reg.servers⟩ : MCPRegistry) n =
      some ({ s with status := st, last_health_check := now }).to_dict := by
    intro st
    unfold MCPRegistry.get_server
    rw [show (⟨updEntry n st now reg.servers⟩ : MCPRegistry).servers =
      updEntry n st now reg.servers from rfl]
    rw [dictGet_updEntry_self reg.servers n st now s hs]
    rfl
  refine ⟨?_, ?_, ?_, ?_⟩
  · intro e b
    unfold MCPRouter.check_server_health
    rw [hs]
    simp only [htb, if_true, beq_self_eq_true, hupd]
    exact ⟨by trivial, hget "available"⟩
  · intro code e b hcode
    have hc : (code == 200) = false := by simp [hcode]
    unfold MCPRouter.check_server_health
    rw [hs]
    simp only [htb, if_true, hc, Bool.false_eq_true, if_false, hupd]
    exact ⟨by trivial, hget "degraded"⟩
  · unfold MCPRouter.check_server_health
    rw [hs]
    simp only [htb, if_true, hupd]
    exact ⟨by trivial, hget "unavailable"⟩
  · unfold MCPRouter.check_server_health
    rw [hs]
    simp only [htb, if_true, hupd]
    exact ⟨by trivial, hget "degraded"⟩

def w4Server : MCPServerInfo :=
  { sampleServer "h" [] with status := "unavailable" }

def w4Reg : MCPRegistry := ⟨[("h", w4Server)]⟩

/-- C4 witness: on a previously unavailable provider, a 200 probe writes
"available", a 404 probe writes "degraded", a connection failure writes
"unavailable" with "Connection refused", and a timeout writes "degraded"
with "Timeout"; `get_server` reflects each written status. -/
theorem C4_check_server_health_mapping_witness :
    ((MCPRouter.check_server_health w4Reg "h" (.response 200 3 {}) 9).2 =
      { name := "h", status := "available", response_time_ms := some 3 } ∧
     MCPRegistry.get_server
        (MCPRouter.check_server_health w4Reg "h" (.response 200 3 {}) 9).1 "h" =
      some ({ w4Server with
        status := "available",
        last_health_check := 9 }).to_dict) ∧
    ((MCPRouter.check_server_health w4Reg "h" (.response 404 3 {}) 9).2 =
      { name := "h", status := "degraded", status_code := some 404 }) ∧
    ((MCPRouter.check_server_health w4Reg "h" .connectError 9).2 =
      { name := "h", status := "unavailable",
        error := some "Connection refused" }) ∧
    ((MCPRouter.check_server_health w4Reg "h" .timeout 9).2 =
      { name := "h", status := "degraded", error := some "Timeout" }) := by
  have h := C4_check_server_health_mapping w4Reg "h" 9 w4Server
    (by decide) rfl
  exact ⟨h.1 3 {}, (h.2.1 404 3 {} (by decide)).1, h.2.2.1.1, h.2.2.2.1⟩

def w7Reg : MCPRegistry := ⟨[("r", sampleServer "r" [])]⟩

/-- C7 counterexample: a connection failure during `read_resource`
propagates the exception, yet the provider's registry status is still
"available" afterwards — `read_resource` performed no health-marking,
contradicting the claim that it applies `call_tool`'s marking rules. -/
theorem C7_read_resource_counterexample :
    (MCPRouter.read_resource w7Reg "r" "u" none .connectError).2 =
      .error .connectError ∧
    (MCPRouter.read_resource w7Reg "r" "u" none .connectError).1 = w7Reg ∧
    (MCPRegistry.get_server
        (MCPRouter.read_resource w7Reg "r" "u" none .connectError).1
        "r").map (fun d => d.status) = some "available" := by
  refine ⟨rfl, rfl, rfl⟩

/-- C7 amended: `read_resource` shares `call_tool`'s dispatch and failure
taxonomy but performs no health-marking at all — every outcome returns
the registry unchanged, and in particular a non-2xx response or a
connection failure propagates as the same exception with no status
write; and, as claimed, it performs no availability check before
dispatch: rewriting the target provider's stored status to any value
leaves its result unchanged. -/
theorem C7_read_resource_no_marking_no_guard (reg : MCPRegistry)
    (server_name uri : String) (sid : Option String) (net : NetOutcome)
    (now : Nat) :
    (MCPRouter.read_resource reg server_name uri sid net).1 = reg ∧
    (∀ s, dictGet reg.servers server_name = some s →
      s.transport = "http" →
      (∀ code e b, statusIsSuccess code = false →
        (MCPRouter.read_resource reg server_name uri sid
            (.response code e b)).2 = .error (.httpStatusError code)) ∧
      (MCPRouter.read_resource reg server_name uri sid .connectError).2 =
        .error .connectError) ∧
    (∀ st, (MCPRouter.read_resource
        (reg.update_server_status server_name st now).1 server_name uri sid
        net).2 = (MCPRouter.read_resource reg server_name uri sid net).2) := by
  refine ⟨?_, ?_, ?_⟩
  · unfold MCPRouter.read_resource
    cases hg : dictGet reg.servers server_name with
    | none => rfl
    | some s =>
      by_cases htb : (s.transport == "http") = true
      · simp only [htb, if_true]
        cases net with
        | response code e b =>
          by_cases hsc : statusIsSuccess code = true
          · simp only [hsc, if_true]
            by_cases herr : b.errorPresent = true
            · simp only [herr, if_true]
            · simp only [herr, Bool.false_eq_true, if_false]
          · simp only [hsc, Bool.false_eq_true, if_false]
        | connectError => rfl
        | timeout => rfl
        | otherFailure m => rfl
      · simp only [htb, Bool.false_eq_true, if_false]
  · intro s hs htr
    have htb : (s.transport == "http") = true := by simp [htr]
    constructor
    · intro code e b hcode
      unfold MCPRouter.read_resource
      rw [hs]
      simp only [htb, if_true, hcode, Bool.false_eq_true, if_false]
    · unfold MCPRouter.read_resource
      rw [hs]
      simp only [htb, if_true]
  · intro st
    cases hg : dictGet reg.servers server_name with
    | none =>
      have hupd : reg.update_server_status server_name st now = (reg, false) := by
        unfold MCPRegistry.update_server_status
        rw [hg]
        rfl
      rw [hupd]
    | some s =>
      have hupd : (reg.update_server_status server_name st now).1 =
          ⟨updEntry server_name st now reg.servers⟩ := by
        unfold MCPRegistry.update_server_status
        rw [hg]
        rfl
      rw [hupd]
      unfold MCPRouter.read_resource
      rw [show (⟨updEntry server_name st now reg.servers⟩ :
        MCPRegistry).servers = updEntry server_name st now reg.servers from rfl]
      rw [dictGet_updEntry_self reg.servers server_name st now s hg, hg]
      by_cases htb : (s.transport == "http") = true
      · simp only [htb, if_true]
        cases net with
        | response code e b =>
          by_cases hsc : statusIsSuccess code = true
          · simp only [hsc, if_true]
            by_cases herr : b.errorPresent = true
            · simp only [herr, if_true]
            · simp only [herr, Bool.false_eq_true, if_false]
          · simp only [hsc, Bool.false_eq_true, if_false]
        | connectError => rfl
        | timeout => rfl
        | otherFailure m => rfl
      · simp only [htb, Bool.false_eq_true, if_false]

/-- C7 amended witness: a 500 response from the provider leaves the
registry untouched while the HTTP status error propagates, and flipping
the provider's status to "unavailable" first does not change the
outcome (no pre-dispatch guard). -/
theorem C7_read_resource_no_marking_no_guard_witness :
    (MCPRouter.read_resource w7Reg "r" "u" none (.response 500 1 {})).1 =
      w7Reg ∧
    (MCPRouter.read_resource w7Reg "r" "u" none (.response 500 1 {})).2 =
      .error (.httpStatusError 500) ∧
    (MCPRouter.read_resource
        (w7Reg.update_server_status "r" "unavailable" 5).1 "r" "u" none
        (.response 500 1 {})).2 =
      (MCPRouter.read_resource w7Reg "r" "u" none (.response 500 1 {})).2 := by
  have h := C7_read_resource_no_marking_no_guard w7Reg "r" "u" none
    (.response 500 1 {}) 5
  exact ⟨h.1,
    (h.2.1 (sampleServer "r" []) (by decide) rfl).1 500 1 {} (by decide),
    h.2.2 "unavailable"⟩

/-- C8: registering a provider and then unregistering its name removes
every trace of it from discovery: the unregister reports true, no entry
of `list_all_tools` is annotated with that server name any more, and
`find_tool_server` returns none for every tool the provider had declared
as long as no remaining provider declares that tool name. -/
theorem C8_register_unregister_roundtrip (reg : MCPRegistry)
    (name version description endpoint transport : String)
    (tools : Option (List Tool)) (resources : Option (List Resource))
    (metadata : Option (List (String × String))) (now : Nat)
    (hwf : reg.wf) :
    ((reg.register name version description endpoint transport tools
        resources metadata now).1.unregister name).2 = true ∧
    (∀ a ∈ ((reg.register name version description endpoint transport tools
        resources metadata now).1.unregister name).1.list_all_tools,
      a.server ≠ name) ∧
    (∀ t, serverDeclaresTool (reg.register name version description endpoint
        transport tools resources metadata now).2 t = true →
      (∀ p ∈ ((reg.register name version description endpoint transport tools
          resources metadata now).1.unregister name).1.servers,
        serverDeclaresTool p.2 t = false) →
      ((reg.register name version description endpoint transport tools
        resources metadata now).1.unregister name).1.find_tool_server t
        = none) := by
  have hget : dictGet (dictSet reg.servers name
      (MCPServerInfo.make name version description endpoint transport tools
        resources metadata now)) name =
      some (MCPServerInfo.make name version description endpoint transport
        tools resources metadata now) :=
    dictGet_dictSet_self reg.servers name _
  have hstate : (reg.register name version description endpoint transport
      tools resources metadata now).1.unregister name =
      (⟨dictDel (dictSet reg.servers name
        (MCPServerInfo.make name version description endpoint transport tools
          resources metadata now)) name⟩, true) := by
    show ((⟨dictSet reg.servers name (MCPServerInfo.make name version
      description endpoint transport tools resources metadata now)⟩ :
        MCPRegistry).unregister name) = _
    unfold MCPRegistry.unregister
    rw [show (⟨dictSet reg.servers name (MCPServerInfo.make name version
      description endpoint transport tools resources metadata now)⟩ :
        MCPRegistry).servers = dictSet reg.servers name
          (MCPServerInfo.make name version description endpoint transport
            tools resources metadata now) from rfl]
    rw [hget]
    rfl
  refine ⟨?_, ?_, ?_⟩
  · rw [hstate]
  · intro a ha
    rw [hstate] at ha
    simp only [MCPRegistry.list_all_tools] at ha
    rw [List.mem_flatMap] at ha
    rcases ha with ⟨p, hp, hap⟩
    rcases List.mem_map.mp hap with ⟨tl, _, hae⟩
    have hkey : p.1 ≠ name := mem_dictDel_key_ne _ name
      (keys_nodup_dictSet reg.servers name _ hwf.1) p hp
    have hmem1 : p ∈ dictSet reg.servers name
        (MCPServerInfo.make name version description endpoint transport tools
          resources metadata now) := mem_dictDel _ name p hp
    have hname : p.2.name = p.1 :=
      names_dictSet reg.servers name _ rfl hwf.2 p hmem1
    have haserver : a.server = p.2.name := by rw [← hae]
    intro hcontra
    rw [haserver, hname] at hcontra
    exact hkey hcontra
  · intro t _ hnone
    rw [hstate] at hnone ⊢
    exact (find_tool_server_eq_none_iff _ t).mpr hnone

def w8Reg : MCPRegistry :=
  ⟨[("other", sampleServer "other" [{ name := some "ot" }])]⟩

/-- C8 witness: registering "p1" with tool "pt" into a registry holding
"other", then unregistering "p1", reports true, keeps `list_all_tools`
free of "p1" annotations, and makes "pt" undiscoverable. -/
theorem C8_register_unregister_roundtrip_witness :
    ((w8Reg.register "p1" "1" "d" "e" "http" (some [{ name := some "pt" }])
        none none 3).1.unregister "p1").2 = true ∧
    ({ server := "other", server_status := "available", name := some "ot",
       description := none } : AnnotatedTool).server ≠ "p1" ∧
    ((w8Reg.register "p1" "1" "d" "e" "http" (some [{ name := some "pt" }])
        none none 3).1.unregister "p1").1.find_tool_server "pt" = none := by
  have h := C8_register_unregister_roundtrip w8Reg "p1" "1" "d" "e" "http"
    (some [{ name := some "pt" }]) none none 3 (by decide)
  exact ⟨h.1, h.2.1 _ (by decide), h.2.2 "pt" (by decide) (by decide)⟩

end MCPGW
